import Mathlib

/-!
Verification of the gesture-recognition and modal-dispatch engine of the
hand-gesture desktop-control repository (open_files.py, video_player.py,
scroll.py, slidetravel.py, Zoom.py, master_gesture_controller.py,
gesture_screenshot.py).

The development has two layers, mirroring the code:

* a geometry layer over `ℝ`: per-frame landmark classification
  (`detect_pinch`, hand-size reference with its 20-pixel floor, finger
  extension tests).  Pixel coordinates are landmark coordinates multiplied
  by the frame width/height, exactly as in the source.  Comparisons that
  the source performs on `np.hypot` values are stated with `Real.sqrt`;
  decidable squared-form characterisations are proved as bridge lemmas.

* a temporal layer: each mode's per-frame loop body is embedded as a pure
  step function on an explicit state record, taking as input the per-frame
  classification results (booleans), the frame timestamp (`ℚ`, standing
  for `time.time()`), and the smoothed-cursor position where the loop uses
  it.  Loops are folds of the step function over a list of frames, with an
  early return on mode exit.  External effects (`pyautogui` calls,
  `os.startfile`, window closing) are modelled as outputs of the step;
  `os.startfile` is modelled as always succeeding.
-/

/-- A 2-D point (a landmark position, or a pixel position). -/
structure Pt where
  x : ℝ
  y : ℝ

/-- A landmark list: index `i` is the i-th MediaPipe hand landmark
(0 = wrist, 4 = thumb tip, 8 = index tip, 9 = middle-finger MCP, ...).
The source only ever indexes a fixed set of joints, so a total function
stands in for the 21-element list. -/
def Landmarks : Type := ℕ → Pt

/-- Conversion of a normalized landmark to pixel coordinates:
`lm[i].x * img_w, lm[i].y * img_h` in the source. -/
def px (w h : ℝ) (p : Pt) : Pt := ⟨p.x * w, p.y * h⟩

/-- Squared Euclidean distance between two pixel points; the source
compares `np.hypot dx dy = Real.sqrt (dist2 ..)` against thresholds. -/
def dist2 (a b : Pt) : ℝ := (a.x - b.x) ^ 2 + (a.y - b.y) ^ 2

lemma dist2_nonneg (a b : Pt) : 0 ≤ dist2 a b :=
  add_nonneg (sq_nonneg _) (sq_nonneg _)

namespace OpenFiles

/-- `HandFileOpener.detect_pinch` (open_files.py, lines 64-80), boolean
component: thumb-tip-to-index-tip pixel distance below
`hand_size * 0.28`, where `hand_size = max(np.hypot(lm9 - lm0), 20.0)`
is the wrist-to-middle-finger-MCP reference floored at 20. -/
def detect_pinch (lm : Landmarks) (w h : ℝ) : Prop :=
  Real.sqrt (dist2 (px w h (lm 4)) (px w h (lm 8))) <
    max (Real.sqrt (dist2 (px w h (lm 9)) (px w h (lm 0)))) 20 * 0.28

end OpenFiles

namespace VideoPlayer

/-- `VideoPlayer._detect_pinch` (video_player.py, lines 158-164), boolean
component, with `_hand_size` (lines 107-111) inlined:
`dist < max(20.0, np.linalg.norm(ref - wrist)) * 0.28`. -/
def detect_pinch (lm : Landmarks) (w h : ℝ) : Prop :=
  Real.sqrt (dist2 (px w h (lm 4)) (px w h (lm 8))) <
    max 20 (Real.sqrt (dist2 (px w h (lm 9)) (px w h (lm 0)))) * 0.28

/-- Thumb-extension test from `VideoPlayer._detect_open_palm`
(video_player.py line 186): `abs(lm[4].x - lm[2].x) > 0.04`. -/
def thumb_ext (lm : Landmarks) : Prop := |(lm 4).x - (lm 2).x| > 0.04

/-- Index-extension test from `VideoPlayer._detect_open_palm`
(video_player.py line 187): `lm[8].y < lm[6].y - 0.02`. -/
def index_ext (lm : Landmarks) : Prop := (lm 8).y < (lm 6).y - 0.02

end VideoPlayer

lemma sqrt_400 : Real.sqrt 400 = 20 := by
  rw [show (400:ℝ) = 20 ^ 2 by norm_num, Real.sqrt_sq (by norm_num)]

/-- Bridge: a `np.hypot`-style comparison against the floored hand-size
reference, restated on squared distances (`0.0784 = 0.28 ^ 2`,
`400 = 20 ^ 2`). -/
lemma sqrt_lt_floored_iff (a b : ℝ) (hb : 0 ≤ b) :
    Real.sqrt a < max (Real.sqrt b) 20 * 0.28 ↔ a < max b 400 * 0.0784 := by
  have h20 : (0:ℝ) < max (Real.sqrt b) 20 :=
    lt_of_lt_of_le (by norm_num) (le_max_right _ _)
  have hM : (0:ℝ) < max (Real.sqrt b) 20 * 0.28 := by positivity
  rw [Real.sqrt_lt' hM]
  have hsq : (max (Real.sqrt b) 20) ^ 2 = max b 400 := by
    rcases le_total b 400 with hb4 | hb4
    · have h1 : Real.sqrt b ≤ 20 := by
        rw [← sqrt_400]; exact Real.sqrt_le_sqrt hb4
      rw [max_eq_right h1, max_eq_right hb4]; norm_num
    · have h1 : (20:ℝ) ≤ Real.sqrt b := by
        rw [← sqrt_400]; exact Real.sqrt_le_sqrt hb4
      rw [max_eq_left h1, max_eq_left hb4, Real.sq_sqrt hb]
  rw [mul_pow, hsq]
  norm_num

/-- Decidable squared-form characterisation of `OpenFiles.detect_pinch`. -/
lemma detect_pinch_iff_sq (lm : Landmarks) (w h : ℝ) :
    OpenFiles.detect_pinch lm w h ↔
      dist2 (px w h (lm 4)) (px w h (lm 8)) <
        max (dist2 (px w h (lm 9)) (px w h (lm 0))) 400 * 0.0784 :=
  sqrt_lt_floored_iff _ _ (dist2_nonneg _ _)

/-- The two pinch detectors (open_files.py and video_player.py) compute the
same predicate: the hand-size floor is written `max(x, 20)` in one file and
`max(20, x)` in the other. -/
lemma detect_pinch_open_eq_vp (lm : Landmarks) (w h : ℝ) :
    OpenFiles.detect_pinch lm w h ↔ VideoPlayer.detect_pinch lm w h := by
  unfold OpenFiles.detect_pinch VideoPlayer.detect_pinch
  rw [max_comm]

/-- A fully closed hand: wrist at (0.5, 0.9), middle-MCP at (0.5, 0.5),
curled thumb with tip (0.5, 0.6) directly above its MCP (0.5, 0.7) and
IP (0.5, 0.65), curled index finger with tip (0.52, 0.6) below its
PIP (0.52, 0.55) in image coordinates.  Thumb tip and index tip are
2 pixels apart in a 100x100 frame while the hand reference size is
40 pixels. -/
def lmClosed : Landmarks := fun i =>
  if i = 0 then ⟨0.5, 0.9⟩
  else if i = 2 then ⟨0.5, 0.7⟩
  else if i = 3 then ⟨0.5, 0.65⟩
  else if i = 4 then ⟨0.5, 0.6⟩
  else if i = 6 then ⟨0.52, 0.55⟩
  else if i = 8 then ⟨0.52, 0.6⟩
  else if i = 9 then ⟨0.5, 0.5⟩
  else ⟨0.5, 0.75⟩

/-- Claim C1, counterexample: a fully closed hand (thumb not extended,
index not extended, index tip below its PIP) whose thumb and index tips
are 2 px apart is classified as a pinch by `HandFileOpener.detect_pinch`
in a 100x100 frame, because the detector tests only the scale-normalized
distance and never the extension of the two fingers. -/
theorem C1_counterexample :
    OpenFiles.detect_pinch lmClosed 100 100 ∧
      ¬ VideoPlayer.thumb_ext lmClosed ∧ ¬ VideoPlayer.index_ext lmClosed := by
  refine ⟨(detect_pinch_iff_sq lmClosed 100 100).mpr ?_, ?_, ?_⟩
  · norm_num [lmClosed, dist2, px]
  · norm_num [VideoPlayer.thumb_ext, lmClosed]
  · norm_num [VideoPlayer.index_ext, lmClosed]

/-- Claim C1 (amended): in both open_files.py and video_player.py the pinch
classifier returns true if and only if the thumb-tip-to-index-tip pixel
distance divided by the floored hand-size reference is below 0.28; no
finger-extension condition enters the classification, so the result is a
pure distance-ratio test. -/
theorem C1_pinch_is_distance_ratio_only (lm : Landmarks) (w h : ℝ) :
    (OpenFiles.detect_pinch lm w h ↔
      Real.sqrt (dist2 (px w h (lm 4)) (px w h (lm 8))) /
        max (Real.sqrt (dist2 (px w h (lm 9)) (px w h (lm 0)))) 20 < 0.28) ∧
    (VideoPlayer.detect_pinch lm w h ↔
      Real.sqrt (dist2 (px w h (lm 4)) (px w h (lm 8))) /
        max 20 (Real.sqrt (dist2 (px w h (lm 9)) (px w h (lm 0)))) < 0.28) := by
  have h1 : (0:ℝ) < max (Real.sqrt (dist2 (px w h (lm 9)) (px w h (lm 0)))) 20 :=
    lt_of_lt_of_le (by norm_num) (le_max_right _ _)
  have h2 : (0:ℝ) < max 20 (Real.sqrt (dist2 (px w h (lm 9)) (px w h (lm 0)))) :=
    lt_of_lt_of_le (by norm_num) (le_max_left _ _)
  constructor
  · unfold OpenFiles.detect_pinch
    rw [div_lt_iff₀ h1, mul_comm]
  · unfold VideoPlayer.detect_pinch
    rw [div_lt_iff₀ h2, mul_comm]

/-- Claim C8: the scale-normalizing divisor is the wrist-to-middle-MCP
pixel distance floored at 20, hence never below 20, and consequently the
scale-normalized distance of any two landmarks never exceeds one twentieth
of their raw pixel distance, however small or degenerate the hand is. -/
theorem C8_hand_size_floor (lm : Landmarks) (w h : ℝ) (i j : ℕ) :
    20 ≤ max (Real.sqrt (dist2 (px w h (lm 9)) (px w h (lm 0)))) 20 ∧
    Real.sqrt (dist2 (px w h (lm i)) (px w h (lm j))) /
        max (Real.sqrt (dist2 (px w h (lm 9)) (px w h (lm 0)))) 20 ≤
      Real.sqrt (dist2 (px w h (lm i)) (px w h (lm j))) / 20 := by
  refine ⟨le_max_right _ _, ?_⟩
  exact div_le_div_of_nonneg_left (Real.sqrt_nonneg _) (by norm_num)
    (le_max_right _ _)

/-- A small, far-away hand: wrist at the origin, middle-MCP 10 px away in
a 100x100 frame (below the 20 px floor), thumb tip at the wrist, index
tip 5 px away. -/
def lmSmall : Landmarks := fun i =>
  if i = 0 then ⟨0, 0⟩
  else if i = 4 then ⟨0, 0⟩
  else if i = 8 then ⟨0.05, 0⟩
  else if i = 9 then ⟨0.1, 0⟩
  else ⟨0, 0⟩

/-- Claim C7, counterexample: pinch detection is not scale-invariant.  For
the small hand `lmSmall`, the pinch fires in a 100x100 frame (tip distance
5 px, hand size floored from 10 px up to 20 px, threshold 5.6 px) but not
when every pixel coordinate is scaled by k = 2 (tip distance 10 px, hand
size 20 px no longer floored, threshold still 5.6 px). -/
theorem C7_counterexample :
    OpenFiles.detect_pinch lmSmall 100 100 ∧
      ¬ OpenFiles.detect_pinch lmSmall (2 * 100) (2 * 100) := by
  constructor
  · exact (detect_pinch_iff_sq lmSmall 100 100).mpr (by norm_num [lmSmall, dist2, px])
  · intro hp
    have := (detect_pinch_iff_sq lmSmall (2 * 100) (2 * 100)).mp hp
    norm_num [lmSmall, dist2, px] at this

/-- Scaling every pixel coordinate by k scales squared pixel distances
by k^2. -/
lemma dist2_px_scale (k w h : ℝ) (a b : Pt) :
    dist2 (px (k * w) (k * h) a) (px (k * w) (k * h) b) =
      k ^ 2 * dist2 (px w h a) (px w h b) := by
  unfold dist2 px
  ring

/-- Claim C7 (amended): pinch detection is scale-invariant whenever the
20-pixel floor on the hand-size reference is inactive, i.e. whenever the
wrist-to-middle-MCP pixel distance is at least 20 both before and after
scaling by k > 0; when the floor engages, scaling can change the result
(see the counterexample). -/
theorem C7_scale_invariant_above_floor (lm : Landmarks) (w h k : ℝ)
    (hk : 0 < k)
    (href : 400 ≤ dist2 (px w h (lm 9)) (px w h (lm 0)))
    (href2 : 400 ≤ dist2 (px (k * w) (k * h) (lm 9)) (px (k * w) (k * h) (lm 0))) :
    OpenFiles.detect_pinch lm (k * w) (k * h) ↔ OpenFiles.detect_pinch lm w h := by
  rw [detect_pinch_iff_sq, detect_pinch_iff_sq]
  rw [max_eq_left href, max_eq_left href2]
  rw [dist2_px_scale, dist2_px_scale]
  have hk2 : (0:ℝ) < k ^ 2 := by positivity
  constructor
  · intro hlt
    have := (mul_lt_mul_left hk2).mp (by linarith [hlt] : k ^ 2 * dist2 (px w h (lm 4)) (px w h (lm 8)) < k ^ 2 * (dist2 (px w h (lm 9)) (px w h (lm 0)) * 0.0784))
    linarith
  · intro hlt
    have := (mul_lt_mul_left hk2).mpr hlt
    linarith

/-- A large hand for the C7 witness: wrist at the origin, middle-MCP
30 px away in a 100x100 frame; the reference stays above the floor both
before and after scaling by 2. -/
def lmBig : Landmarks := fun i =>
  if i = 0 then ⟨0, 0⟩
  else if i = 4 then ⟨0, 0⟩
  else if i = 8 then ⟨0.05, 0⟩
  else if i = 9 then ⟨0.3, 0⟩
  else ⟨0, 0⟩

/-- Witness for the amended C7 theorem at the concrete hand `lmBig`,
frame 100x100, scale factor k = 2. -/
theorem C7_scale_invariant_witness :
    (0:ℝ) < 2 ∧
      (400:ℝ) ≤ dist2 (px 100 100 (lmBig 9)) (px 100 100 (lmBig 0)) ∧
      (400:ℝ) ≤ dist2 (px (2 * 100) (2 * 100) (lmBig 9)) (px (2 * 100) (2 * 100) (lmBig 0)) ∧
      (OpenFiles.detect_pinch lmBig (2 * 100) (2 * 100) ↔
        OpenFiles.detect_pinch lmBig 100 100) :=
  ⟨by norm_num, by norm_num [lmBig, dist2, px], by norm_num [lmBig, dist2, px],
    C7_scale_invariant_above_floor lmBig 100 100 2 (by norm_num)
      (by norm_num [lmBig, dist2, px]) (by norm_num [lmBig, dist2, px])⟩

/-! ### Finger states and the Dispatcher's mode-entry classifier -/

/-- The 5-element boolean finger-state vector
`[thumb, index, middle, ring, pinky]` produced by the per-file
`fingers_up` helpers. -/
structure FingerState where
  thumb : Bool
  index : Bool
  middle : Bool
  ring : Bool
  pinky : Bool
deriving DecidableEq, Repr

/-- The six interaction modes of `detect_mode_gesture`
(master_gesture_controller.py). -/
inductive Mode where
  | scroll_mode
  | file_mode
  | ss_mode
  | slide_mode
  | video_mode
  | zoom_mode
deriving DecidableEq, Repr, Fintype

/-- `detect_mode_gesture` (master_gesture_controller.py, lines 53-87):
ordered pattern match from the finger-state vector to a mode, `none` when
nothing matches. -/
def detect_mode_gesture (f : FingerState) : Option Mode :=
  if f.thumb && f.index && f.middle && f.ring && f.pinky then some .scroll_mode
  else if f.thumb && f.index && !f.middle && !f.ring && !f.pinky then some .file_mode
  else if !f.thumb && !f.index && f.middle && f.ring && f.pinky then some .ss_mode
  else if !f.thumb && f.index && f.middle && !f.ring && !f.pinky then some .slide_mode
  else if !f.thumb && f.index && f.middle && f.ring && !f.pinky then some .video_mode
  else if !f.thumb && f.index && !f.middle && !f.ring && !f.pinky then some .zoom_mode
  else none

/-- The individual mode-entry patterns, one per branch of
`detect_mode_gesture`. -/
def modePattern (m : Mode) (f : FingerState) : Bool :=
  match m with
  | .scroll_mode => f.thumb && f.index && f.middle && f.ring && f.pinky
  | .file_mode => f.thumb && f.index && !f.middle && !f.ring && !f.pinky
  | .ss_mode => !f.thumb && !f.index && f.middle && f.ring && f.pinky
  | .slide_mode => !f.thumb && f.index && f.middle && !f.ring && !f.pinky
  | .video_mode => !f.thumb && f.index && f.middle && f.ring && !f.pinky
  | .zoom_mode => !f.thumb && f.index && !f.middle && !f.ring && !f.pinky

/-- Claim C4: over all 32 finger-state vectors, at most one mode-entry
pattern matches any given vector, `detect_mode_gesture` returns `some m`
exactly when pattern `m` matches, and returns `none` exactly when no
pattern matches — so the classifier is a total function with mutually
exclusive patterns. -/
theorem C4_mode_patterns_exclusive :
    ∀ t i m r p : Bool,
      (∀ m1 m2 : Mode, modePattern m1 ⟨t, i, m, r, p⟩ = true →
        modePattern m2 ⟨t, i, m, r, p⟩ = true → m1 = m2) ∧
      (∀ mo : Mode, detect_mode_gesture ⟨t, i, m, r, p⟩ = some mo ↔
        modePattern mo ⟨t, i, m, r, p⟩ = true) ∧
      (detect_mode_gesture ⟨t, i, m, r, p⟩ = none ↔
        ∀ mo : Mode, modePattern mo ⟨t, i, m, r, p⟩ = false) := by
  decide

/-! ### The Dispatcher's confirmation counter (master_gesture_controller.py) -/

/-- One detection-loop frame as the Dispatcher sees it: whether a hand was
detected, and the finger-state vector extracted from it. -/
structure DFrame where
  hand : Bool
  fingers : FingerState
deriving DecidableEq

/-- One iteration of `MasterGestureController.run` (lines 216-259) acting
on `confirmation_frames`: with a hand and a recognized mode gesture the
counter is incremented and, at the threshold of 10, the mode is entered
and the counter cleared; with a hand but no recognized gesture, or with no
hand, the counter is cleared. -/
def dispatcherStep (c : ℕ) (fr : DFrame) : ℕ × Option Mode :=
  if fr.hand then
    match detect_mode_gesture fr.fingers with
    | some m => if 10 ≤ c + 1 then (0, some m) else (c + 1, none)
    | none => (0, none)
  else (0, none)

/-- The detection loop over a frame list, returning the final counter. -/
def dispatcherRun (c : ℕ) : List DFrame → ℕ
  | [] => c
  | fr :: rest => dispatcherRun (dispatcherStep c fr).1 rest

/-- Claim C3, counterexample: two consecutive frames carrying two
different recognized gesture labels (index-only = zoom mode, then all
five fingers = scroll mode) leave the confirmation counter at 2; the
differing label does not reset it to 0, because the loop increments on
any recognized gesture without comparing it to the previous frame's
label. -/
theorem C3_counterexample :
    dispatcherRun 0
        [⟨true, ⟨false, true, false, false, false⟩⟩,
         ⟨true, ⟨true, true, true, true, true⟩⟩] = 2 ∧
      detect_mode_gesture ⟨false, true, false, false, false⟩ ≠
        detect_mode_gesture ⟨true, true, true, true, true⟩ := by
  decide

lemma dispatcherRun_append (c : ℕ) (xs ys : List DFrame) :
    dispatcherRun c (xs ++ ys) = dispatcherRun (dispatcherRun c xs) ys := by
  induction xs generalizing c with
  | nil => rfl
  | cons fr rest ih => simp [dispatcherRun, ih]

lemma dispatcherRun_replicate (f : DFrame) (hf : f.hand = true)
    (hg : detect_mode_gesture f.fingers ≠ none) :
    ∀ (N : ℕ) (c : ℕ), c < 10 →
      dispatcherRun c (List.replicate N f) = (c + N) % 10 := by
  intro N
  induction N with
  | zero => intro c hc; simp [dispatcherRun, Nat.mod_eq_of_lt hc]
  | succ n ih =>
    intro c hc
    rw [List.replicate_succ]
    have hstep : (dispatcherStep c f).1 = (c + 1) % 10 := by
      rcases hgm : detect_mode_gesture f.fingers with _ | m
      · exact absurd hgm hg
      · simp only [dispatcherStep, hf, if_true, hgm]
        by_cases h10 : 10 ≤ c + 1
        · have : c + 1 = 10 := by omega
          simp [h10, this]
        · have : (c + 1) % 10 = c + 1 := Nat.mod_eq_of_lt (by omega)
          simp [h10, this]
    simp only [dispatcherRun, hstep]
    rw [ih _ (Nat.mod_lt _ (by norm_num))]
    omega

/-- Claim C3 (amended): the confirmation counter is incremented on every
frame with a detected hand and any recognized mode-entry gesture —
whether or not the label matches the previous frame's — wrapping to 0
when the threshold of 10 fires mode entry; it resets to 0 exactly on
frames lacking a recognized gesture or lacking a hand.  For N
identical-label frames followed by one frame with a different recognized
label, the counter is `N % 10` after the last identical frame and
`(N + 1) % 10` (not 0) after the differing frame. -/
theorem C3_counter_increments_on_any_recognized_gesture
    (N : ℕ) (f g : DFrame)
    (hf : f.hand = true) (hg : g.hand = true)
    (hfg : detect_mode_gesture f.fingers ≠ none)
    (hgg : detect_mode_gesture g.fingers ≠ none)
    (hdiff : detect_mode_gesture f.fingers ≠ detect_mode_gesture g.fingers) :
    dispatcherRun 0 (List.replicate N f) = N % 10 ∧
    dispatcherRun 0 (List.replicate N f ++ [g]) = (N + 1) % 10 ∧
    (∀ (c : ℕ) (fr : DFrame), fr.hand = false → (dispatcherStep c fr).1 = 0) ∧
    (∀ (c : ℕ) (fr : DFrame), detect_mode_gesture fr.fingers = none →
      (dispatcherStep c fr).1 = 0) := by
  have hrep : dispatcherRun 0 (List.replicate N f) = N % 10 := by
    have := dispatcherRun_replicate f hf hfg N 0 (by norm_num)
    simpa using this
  refine ⟨hrep, ?_, ?_, ?_⟩
  · rw [dispatcherRun_append, hrep]
    have : dispatcherRun (N % 10) [g] = (N % 10 + 1) % 10 := by
      have hstep : (dispatcherStep (N % 10) g).1 = (N % 10 + 1) % 10 := by
        rcases hgm : detect_mode_gesture g.fingers with _ | m
        · exact absurd hgm hgg
        · simp only [dispatcherStep, hg, if_true, hgm]
          by_cases h10 : 10 ≤ N % 10 + 1
          · have h9 : N % 10 = 9 := by
              have := Nat.mod_lt N (show 0 < 10 by norm_num)
              omega
            simp [h10, h9]
          · have : (N % 10 + 1) % 10 = N % 10 + 1 := Nat.mod_eq_of_lt (by omega)
            simp [h10, this]
      simp [dispatcherRun, hstep]
    rw [this]
    omega
  · intro c fr hfr
    simp [dispatcherStep, hfr]
  · intro c fr hfr
    by_cases hh : fr.hand <;> simp [dispatcherStep, hh, hfr]

/-- Witness for the amended C3 theorem: three index-only frames (zoom
label) followed by one all-fingers frame (scroll label) leave the counter
at 4 = (3 + 1) % 10. -/
theorem C3_counter_witness :
    dispatcherRun 0
        (List.replicate 3 (⟨true, ⟨false, true, false, false, false⟩⟩ : DFrame) ++
          [⟨true, ⟨true, true, true, true, true⟩⟩]) = 4 :=
  (C3_counter_increments_on_any_recognized_gesture 3
      ⟨true, ⟨false, true, false, false, false⟩⟩
      ⟨true, ⟨true, true, true, true, true⟩⟩
      (by decide) (by decide) (by decide) (by decide) (by decide)).2.1

/-! ### Scroll mode (scroll.py) -/

/-- One frame as `run_scroll` sees it: timestamp, hand presence, and the
finger-state vector from scroll.py's own `fingers_up`. -/
structure SFrame where
  t : ℚ
  hand : Bool
  fingers : FingerState
deriving DecidableEq

/-- Mutable loop state of `run_scroll`: the master-exit hold start and the
action cooldown timestamp. -/
structure SState where
  exit_start : Option ℚ
  last_action_time : ℚ
deriving DecidableEq

/-- The cooldown-gated action block of `run_scroll` (lines 65-90): after
0.8 s since the last action, the exact finger patterns fire a scroll (the
fist pattern fires no scroll but still refreshes the cooldown). -/
def scrollCooldown (s : SState) (fr : SFrame) : SState × Option ℤ :=
  if 0.8 < fr.t - s.last_action_time then
    if fr.fingers = ⟨false, false, false, false, false⟩ then
      (⟨s.exit_start, fr.t⟩, none)
    else if fr.fingers = ⟨false, true, false, false, false⟩ then
      (⟨s.exit_start, fr.t⟩, some 300)
    else if fr.fingers = ⟨false, true, true, false, false⟩ then
      (⟨s.exit_start, fr.t⟩, some (-300))
    else if fr.fingers = ⟨true, false, false, false, false⟩ then
      (⟨s.exit_start, fr.t⟩, some 3000)
    else if fr.fingers = ⟨true, true, true, true, true⟩ then
      (⟨s.exit_start, fr.t⟩, some (-3000))
    else (s, none)
  else (s, none)

/-- One iteration of the `run_scroll` loop (lines 34-95).  Note: when no
hand is detected the body under `if result.multi_hand_landmarks` is simply
skipped — there is no else branch — so the state (including a partial
`exit_start` hold) is left untouched.  The result is
(new state, scroll amount emitted, exited). -/
def scrollStep (s : SState) (fr : SFrame) : SState × Option ℤ × Bool :=
  if fr.hand then
    if fr.fingers.thumb && fr.fingers.index && !fr.fingers.middle &&
        !fr.fingers.ring && fr.fingers.pinky then
      match s.exit_start with
      | none =>
        let r := scrollCooldown ⟨some fr.t, s.last_action_time⟩ fr
        (r.1, r.2, false)
      | some st =>
        if 2 ≤ fr.t - st then (s, none, true)
        else
          let r := scrollCooldown s fr
          (r.1, r.2, false)
    else
      let r := scrollCooldown ⟨none, s.last_action_time⟩ fr
      (r.1, r.2, false)
  else (s, none, false)

/-- The scroll-mode loop over a frame list; stops at the master-exit
return.  Result: (final state, whether the mode exited). -/
def scrollRun (s : SState) : List SFrame → SState × Bool
  | [] => (s, false)
  | fr :: rest =>
    let r := scrollStep s fr
    if r.2.2 then (r.1, true) else scrollRun r.1 rest

/-- Claim C5, counterexample: in scroll mode a partial master-exit hold
survives a frame without a detected hand.  Holding the exit gesture at
t = 0, losing the hand entirely at t = 1, and showing the gesture again at
t = 2.5 leaves `exit_start` armed at 0 across the hand-less frame and then
completes the exit — the timer is not reset to its unarmed state. -/
theorem C5_counterexample :
    (scrollRun ⟨none, 0⟩
        [⟨0, true, ⟨true, true, false, false, true⟩⟩,
         ⟨1, false, ⟨false, false, false, false, false⟩⟩]).1.exit_start = some 0 ∧
      (scrollRun ⟨none, 0⟩
        [⟨0, true, ⟨true, true, false, false, true⟩⟩,
         ⟨1, false, ⟨false, false, false, false, false⟩⟩,
         ⟨5/2, true, ⟨true, true, false, false, true⟩⟩]).2 = true := by
  norm_num [scrollRun, scrollStep, scrollCooldown]

/-! ### Slide travel mode (slidetravel.py) -/

/-- One frame as `run_slide_travel` sees it: timestamp, hand presence, the
finger-state vector from slidetravel.py's `fingers_up`, and the result of
the `_is_fist` compactness metric. -/
structure SlFrame where
  t : ℚ
  hand : Bool
  fingers : FingerState
  fist : Bool
deriving DecidableEq

/-- Mutable loop state of `run_slide_travel`. -/
structure SlState where
  fist_start : Option ℚ
  last_action_time : ℚ
deriving DecidableEq

/-- Actions emitted by slide-travel mode. -/
inductive SlAction where
  | closePPT
  | nextSlide
  | prevSlide
deriving DecidableEq

/-- One iteration of the `run_slide_travel` loop (lines 119-192): fist
hold (0.6 s) closes the presentation; the thumb+index+pinky pattern
returns to the master controller IMMEDIATELY, with no hold; the exact
index-only / index+middle patterns fire next/previous slide behind a 1 s
cooldown.  No hand resets only the fist timer (line 183). -/
def slideStep (s : SlState) (fr : SlFrame) : SlState × Option SlAction × Bool :=
  if fr.hand then
    let fist_res : SlState × Option SlAction :=
      if fr.fist then
        let st := s.fist_start.getD fr.t
        if 3/5 ≤ fr.t - st then (⟨none, fr.t⟩, some .closePPT)
        else (⟨some st, s.last_action_time⟩, none)
      else (⟨none, s.last_action_time⟩, none)
    let s1 := fist_res.1
    if fr.fingers.thumb && fr.fingers.index && fr.fingers.pinky &&
        !fr.fingers.middle && !fr.fingers.ring then
      (s1, fist_res.2, true)
    else
      if 1 < fr.t - s1.last_action_time ∧ fr.fist = false then
        if fr.fingers = ⟨false, true, false, false, false⟩ then
          (⟨s1.fist_start, fr.t⟩, some .nextSlide, false)
        else if fr.fingers = ⟨false, true, true, false, false⟩ then
          (⟨s1.fist_start, fr.t⟩, some .prevSlide, false)
        else (s1, fist_res.2, false)
      else (s1, fist_res.2, false)
  else (⟨none, s.last_action_time⟩, none, false)

/-- The slide-travel loop over a frame list; stops on exit. -/
def slideRun (s : SlState) : List SlFrame → SlState × Bool
  | [] => (s, false)
  | fr :: rest =>
    let r := slideStep s fr
    if r.2.2 then (r.1, true) else slideRun r.1 rest

/-- Claim C2, counterexample: in slide-travel mode the master-exit gesture
(thumb, index, pinky up; middle, ring down) terminates the mode on the
very first frame it is recognized — a freshly started mode exits at t = 0
after the gesture has been held for 0 seconds, not 2. -/
theorem C2_counterexample :
    (slideRun ⟨none, 0⟩
        [⟨0, true, ⟨true, true, false, false, true⟩, false⟩]).2 = true := by
  norm_num [slideRun, slideStep]

/-- The screenshot trigger `are_fingers_up` (gesture_screenshot.py,
lines 24-51): thumb, index and pinky tips above their IP/PIP joints;
middle and ring are not consulted. -/
def are_fingers_up (lm : Landmarks) : Prop :=
  (lm 4).y < (lm 3).y ∧ (lm 8).y < (lm 6).y ∧ (lm 20).y < (lm 18).y

/-- A hand in the canonical master-exit pose: thumb, index and pinky tips
above their reference joints, middle and ring tips below theirs. -/
def lmMasterExit : Landmarks := fun i =>
  if i = 3 then ⟨0.35, 0.6⟩
  else if i = 4 then ⟨0.3, 0.5⟩
  else if i = 6 then ⟨0.45, 0.6⟩
  else if i = 8 then ⟨0.45, 0.4⟩
  else if i = 10 then ⟨0.5, 0.6⟩
  else if i = 12 then ⟨0.5, 0.8⟩
  else if i = 14 then ⟨0.55, 0.6⟩
  else if i = 16 then ⟨0.55, 0.8⟩
  else if i = 18 then ⟨0.6, 0.6⟩
  else if i = 20 then ⟨0.6, 0.4⟩
  else ⟨0.5, 0.9⟩

/-- The master-exit pose test shared by open_files.py (lines 203-209) and
`VideoPlayer._detect_master_exit` (video_player.py, lines 195-203):
thumb tip left of its IP, index and pinky tips 0.02 above their PIPs,
middle and ring tips not 0.02 above theirs. -/
def detect_master_exit (lm : Landmarks) : Prop :=
  (lm 4).x < (lm 3).x ∧ (lm 8).y < (lm 6).y - 0.02 ∧ (lm 20).y < (lm 18).y - 0.02 ∧
    ¬ ((lm 12).y < (lm 10).y - 0.02) ∧ ¬ ((lm 16).y < (lm 14).y - 0.02)

/-- The master-exit pose is not reserved: a hand in the canonical
master-exit pose also satisfies the screenshot mode's trigger test, so
screenshot mode maps the same pose to taking a screenshot. -/
theorem masterExit_pose_triggers_screenshot :
    detect_master_exit lmMasterExit ∧ are_fingers_up lmMasterExit := by
  constructor
  · refine ⟨?_, ?_, ?_, ?_, ?_⟩ <;> norm_num [lmMasterExit, detect_master_exit]
  · refine ⟨?_, ?_, ?_⟩ <;> norm_num [lmMasterExit, are_fingers_up]

/-! ### Zoom mode (Zoom.py) -/

/-- The gestures of `Zoom.detect_gesture`. -/
inductive ZGesture where
  | zoom_in
  | zoom_out
  | fist
deriving DecidableEq, Repr

/-- `detect_gesture` (Zoom.py, lines 61-79). -/
def detect_gesture (f : FingerState) : Option ZGesture :=
  if f.index && !(f.middle || f.ring || f.pinky) then some .zoom_in
  else if f.index && f.middle && !(f.ring || f.pinky) then some .zoom_out
  else if !(f.thumb || f.index || f.middle || f.ring || f.pinky) then some .fist
  else none

/-- Zoom-mode loop state (module-level variables of Zoom.py). -/
structure ZState where
  zoom_in_frames : ℕ
  zoom_out_frames : ℕ
  fist_frames : ℕ
  current_gesture : Option ZGesture
  last_action_time : ℚ
deriving DecidableEq

/-- One frame as the zoom loop sees it. -/
structure ZFrame where
  t : ℚ
  hand : Bool
  fingers : FingerState
deriving DecidableEq

/-- Actions emitted by the zoom loop. -/
inductive ZAction where
  | zoomIn
  | zoomOut
deriving DecidableEq, Repr


/-- Equality test on optional zoom gestures (the `gesture !=
current_gesture` comparison of Zoom.py, written as an explicit boolean
function). -/
def zgEq : Option ZGesture → Option ZGesture → Bool
  | none, none => true
  | some .zoom_in, some .zoom_in => true
  | some .zoom_out, some .zoom_out => true
  | some .fist, some .fist => true
  | _, _ => false

lemma zgEq_iff (a b : Option ZGesture) : zgEq a b = true ↔ a = b := by
  rcases a with _ | ga <;> rcases b with _ | gb
  · simp [zgEq]
  · rcases gb with _ | _ | _ <;> simp [zgEq]
  · rcases ga with _ | _ | _ <;> simp [zgEq]
  · rcases ga with _ | _ | _ <;> rcases gb with _ | _ | _ <;> simp [zgEq]

/-- Counter accumulation of the zoom loop (Zoom.py, lines 114-139):
counters reset when the detected gesture differs from `current_gesture`,
then the counter matching the detected gesture increments while the other
two reset; no recognized gesture clears everything. -/
def zoomAccum (s : ZState) (fr : ZFrame) : ZState :=
  let g := detect_gesture fr.fingers
  let s0 : ZState :=
    if zgEq g s.current_gesture then s else ⟨0, 0, 0, g, s.last_action_time⟩
  match g with
  | some .zoom_in =>
    ⟨s0.zoom_in_frames + 1, 0, 0, s0.current_gesture, s0.last_action_time⟩
  | some .zoom_out =>
    ⟨0, s0.zoom_out_frames + 1, 0, s0.current_gesture, s0.last_action_time⟩
  | some .fist =>
    ⟨0, 0, s0.fist_frames + 1, s0.current_gesture, s0.last_action_time⟩
  | none => ⟨0, 0, 0, none, s0.last_action_time⟩

/-- Cooldown-gated firing of the zoom loop (Zoom.py, lines 141-157): a
fire requires `ZOOM_COOLDOWN = 0.5` seconds since `last_action_time` and
8 accumulated frames of zoom-in or zoom-out; a fire refreshes
`last_action_time` to the current frame time and clears the counter and
`current_gesture`. -/
def zoomGate (s1 : ZState) (t : ℚ) : ZState × Option ZAction :=
  if 0.5 ≤ t - s1.last_action_time then
    if 8 ≤ s1.zoom_in_frames then
      (⟨0, s1.zoom_out_frames, s1.fist_frames, none, t⟩, some .zoomIn)
    else if 8 ≤ s1.zoom_out_frames then
      (⟨s1.zoom_in_frames, 0, s1.fist_frames, none, t⟩, some .zoomOut)
    else (s1, none)
  else (s1, none)

/-- One iteration of the zoom loop (Zoom.py, lines 94-203): accumulation,
the cooldown-gated fire, the 8-frame fist exit; no-hand frames clear all
counters.  Result: (new state, fired action, exited). -/
def zoomStep (s : ZState) (fr : ZFrame) : ZState × Option ZAction × Bool :=
  if fr.hand then
    let fg := zoomGate (zoomAccum s fr) fr.t
    (fg.1, fg.2, decide (8 ≤ fg.1.fist_frames))
  else (⟨0, 0, 0, none, s.last_action_time⟩, none, false)

/-- The zoom loop from a given state, listing the per-frame fired action;
the list ends early at the fist exit, mirroring `break`. -/
def zoomOuts (s : ZState) : List ZFrame → List (Option ZAction)
  | [] => []
  | fr :: rest =>
    let r := zoomStep s fr
    if r.2.2 then [r.2.1] else r.2.1 :: zoomOuts r.1 rest

/-- Initial zoom-mode state (Zoom.py, lines 12-24): counters 0, no current
gesture, `last_action_time = 0`. -/
def zInit : ZState := ⟨0, 0, 0, none, 0⟩

/-- Whether the zoom loop started in state `s` fires an action at frame
index `k` of the given frame list. -/
def zoomFiresFrom (s : ZState) (frames : List ZFrame) (k : ℕ) : Bool :=
  ((zoomOuts s frames).getD k none).isSome

/-- The timestamp of frame `k` (junk when out of range). -/
def frameT (frames : List ZFrame) (k : ℕ) : ℚ :=
  (frames.getD k ⟨0, false, ⟨false, false, false, false, false⟩⟩).t

lemma zoomAccum_last (s : ZState) (fr : ZFrame) :
    (zoomAccum s fr).last_action_time = s.last_action_time := by
  unfold zoomAccum
  rcases h : detect_gesture fr.fingers with _ | g
  · simp only [h]; split <;> rfl
  · rcases g with _ | _ | _ <;> (simp only [h]; split <;> rfl)

lemma zoomGate_fire (s1 : ZState) (t : ℚ) (a : ZAction)
    (hf : (zoomGate s1 t).2 = some a) :
    0.5 ≤ t - s1.last_action_time ∧ (zoomGate s1 t).1.last_action_time = t := by
  unfold zoomGate at hf ⊢
  split_ifs at hf ⊢ <;> simp_all

lemma zoomGate_nofire (s1 : ZState) (t : ℚ)
    (hf : (zoomGate s1 t).2 = none) :
    (zoomGate s1 t).1.last_action_time = s1.last_action_time := by
  unfold zoomGate at hf ⊢
  split_ifs at hf ⊢ <;> simp_all

lemma zoomStep_fire_gap (s : ZState) (fr : ZFrame) (a : ZAction)
    (hf : (zoomStep s fr).2.1 = some a) :
    0.5 ≤ fr.t - s.last_action_time ∧ (zoomStep s fr).1.last_action_time = fr.t := by
  unfold zoomStep at hf ⊢
  by_cases hh : fr.hand
  · simp only [hh, if_true] at hf ⊢
    have := zoomGate_fire (zoomAccum s fr) fr.t a hf
    rw [zoomAccum_last] at this
    exact this
  · simp [hh] at hf

lemma zoomStep_nofire_last (s : ZState) (fr : ZFrame)
    (hf : (zoomStep s fr).2.1 = none) :
    (zoomStep s fr).1.last_action_time = s.last_action_time := by
  unfold zoomStep at hf ⊢
  by_cases hh : fr.hand
  · simp only [hh, if_true] at hf ⊢
    rw [zoomGate_nofire (zoomAccum s fr) fr.t hf, zoomAccum_last]
  · simp [hh]

lemma zoomOuts_head (s : ZState) (fr : ZFrame) (rest : List ZFrame) :
    (zoomOuts s (fr :: rest)).getD 0 none = (zoomStep s fr).2.1 := by
  simp only [zoomOuts]
  split <;> simp

lemma zoomFires_zero (s : ZState) (fr : ZFrame) (rest : List ZFrame) :
    zoomFiresFrom s (fr :: rest) 0 = ((zoomStep s fr).2.1).isSome := by
  unfold zoomFiresFrom
  rw [zoomOuts_head]

lemma zoomFires_succ_exit (s : ZState) (fr : ZFrame) (rest : List ZFrame) (k : ℕ)
    (hex : (zoomStep s fr).2.2 = true) :
    zoomFiresFrom s (fr :: rest) (k + 1) = false := by
  simp [zoomFiresFrom, zoomOuts, hex]

lemma zoomFires_succ_cont (s : ZState) (fr : ZFrame) (rest : List ZFrame) (k : ℕ)
    (hex : (zoomStep s fr).2.2 = false) :
    zoomFiresFrom s (fr :: rest) (k + 1) =
      zoomFiresFrom (zoomStep s fr).1 rest k := by
  simp [zoomFiresFrom, zoomOuts, hex]

lemma frameT_cons_succ (fr : ZFrame) (rest : List ZFrame) (k : ℕ) :
    frameT (fr :: rest) (k + 1) = frameT rest k := by
  simp [frameT]

lemma zoom_first_fire_gap :
    ∀ (frames : List ZFrame) (s : ZState) (j : ℕ),
      zoomFiresFrom s frames j = true →
      (∀ k, k < j → zoomFiresFrom s frames k = false) →
      0.5 ≤ frameT frames j - s.last_action_time := by
  intro frames
  induction frames with
  | nil =>
    intro s j hj _
    simp [zoomFiresFrom, zoomOuts] at hj
  | cons fr rest ih =>
    intro s j hj hbefore
    cases j with
    | zero =>
      rw [zoomFires_zero] at hj
      rcases ho : (zoomStep s fr).2.1 with _ | a
      · rw [ho] at hj; simp at hj
      · have ht : frameT (fr :: rest) 0 = fr.t := rfl
        rw [ht]
        exact (zoomStep_fire_gap s fr a ho).1
    | succ j' =>
      have h0 : zoomFiresFrom s (fr :: rest) 0 = false := hbefore 0 (Nat.succ_pos _)
      rw [zoomFires_zero] at h0
      have hhead : (zoomStep s fr).2.1 = none := by
        rcases ho : (zoomStep s fr).2.1 with _ | a
        · rfl
        · rw [ho] at h0; simp at h0
      by_cases hex : (zoomStep s fr).2.2
      · rw [zoomFires_succ_exit s fr rest j' hex] at hj
        exact absurd hj (by simp)
      · rw [zoomFires_succ_cont s fr rest j' (by simpa using hex)] at hj
        have hmid : ∀ k, k < j' → zoomFiresFrom (zoomStep s fr).1 rest k = false := by
          intro k hk
          have := hbefore (k + 1) (by omega)
          rwa [zoomFires_succ_cont s fr rest k (by simpa using hex)] at this
        have := ih (zoomStep s fr).1 j' hj hmid
        rw [zoomStep_nofire_last s fr hhead] at this
        rwa [frameT_cons_succ]

lemma zoom_consecutive_fire_gap :
    ∀ (frames : List ZFrame) (s : ZState) (i j : ℕ),
      i < j →
      zoomFiresFrom s frames i = true →
      zoomFiresFrom s frames j = true →
      (∀ k, i < k → k < j → zoomFiresFrom s frames k = false) →
      0.5 ≤ frameT frames j - frameT frames i := by
  intro frames
  induction frames with
  | nil =>
    intro s i j _ hi _ _
    simp [zoomFiresFrom, zoomOuts] at hi
  | cons fr rest ih =>
    intro s i j hij hi hj hmid
    cases j with
    | zero => omega
    | succ j' =>
      by_cases hex : (zoomStep s fr).2.2
      · rw [zoomFires_succ_exit s fr rest j' hex] at hj
        exact absurd hj (by simp)
      · have hexf : (zoomStep s fr).2.2 = false := by simpa using hex
        rw [zoomFires_succ_cont s fr rest j' hexf] at hj
        cases i with
        | zero =>
          rw [zoomFires_zero] at hi
          rcases ho : (zoomStep s fr).2.1 with _ | a
          · rw [ho] at hi; simp at hi
          · have hlast := (zoomStep_fire_gap s fr a ho).2
            have hmid' : ∀ k, k < j' → zoomFiresFrom (zoomStep s fr).1 rest k = false := by
              intro k hk
              have := hmid (k + 1) (by omega) (by omega)
              rwa [zoomFires_succ_cont s fr rest k hexf] at this
            have hgap := zoom_first_fire_gap rest (zoomStep s fr).1 j' hj hmid'
            rw [hlast] at hgap
            have ht0 : frameT (fr :: rest) 0 = fr.t := rfl
            rw [frameT_cons_succ, ht0]
            exact hgap
        | succ i' =>
          rw [zoomFires_succ_cont s fr rest i' hexf] at hi
          have hmid' : ∀ k, i' < k → k < j' → zoomFiresFrom (zoomStep s fr).1 rest k = false := by
            intro k hk1 hk2
            have := hmid (k + 1) (by omega) (by omega)
            rwa [zoomFires_succ_cont s fr rest k hexf] at this
          have := ih (zoomStep s fr).1 i' j' (by omega) hi hj hmid'
          rwa [frameT_cons_succ, frameT_cons_succ]

/-- Claim C6: in zoom mode, once any zoom action fires, the next fire —
even from a continuously held gesture that re-reaches the 8-frame
confirmation threshold — happens only on a frame at least
`ZOOM_COOLDOWN = 0.5` seconds after the firing frame: consecutive fires
are separated by at least the cooldown, so at most one action fires per
cooldown window. -/
theorem C6_zoom_cooldown_gap (frames : List ZFrame) (i j : ℕ)
    (hij : i < j)
    (hi : zoomFiresFrom zInit frames i = true)
    (hj : zoomFiresFrom zInit frames j = true)
    (hmid : ∀ k, i < k → k < j → zoomFiresFrom zInit frames k = false) :
    0.5 ≤ frameT frames j - frameT frames i :=
  zoom_consecutive_fire_gap frames zInit i j hij hi hj hmid

/-- Sixteen frames of the zoom-in gesture (index finger only), ten per
second from t = 1: the loop fires at frame 7 (t = 1.7, eight accumulated
frames, cooldown over) and again at frame 15 (t = 2.5). -/
def zoomHeldTrace : List ZFrame :=
  [⟨1, true, ⟨false, true, false, false, false⟩⟩,
   ⟨1.1, true, ⟨false, true, false, false, false⟩⟩,
   ⟨1.2, true, ⟨false, true, false, false, false⟩⟩,
   ⟨1.3, true, ⟨false, true, false, false, false⟩⟩,
   ⟨1.4, true, ⟨false, true, false, false, false⟩⟩,
   ⟨1.5, true, ⟨false, true, false, false, false⟩⟩,
   ⟨1.6, true, ⟨false, true, false, false, false⟩⟩,
   ⟨1.7, true, ⟨false, true, false, false, false⟩⟩,
   ⟨1.8, true, ⟨false, true, false, false, false⟩⟩,
   ⟨1.9, true, ⟨false, true, false, false, false⟩⟩,
   ⟨2, true, ⟨false, true, false, false, false⟩⟩,
   ⟨2.1, true, ⟨false, true, false, false, false⟩⟩,
   ⟨2.2, true, ⟨false, true, false, false, false⟩⟩,
   ⟨2.3, true, ⟨false, true, false, false, false⟩⟩,
   ⟨2.4, true, ⟨false, true, false, false, false⟩⟩,
   ⟨2.5, true, ⟨false, true, false, false, false⟩⟩]

lemma zoomOuts_heldTrace :
    zoomOuts zInit zoomHeldTrace =
      [none, none, none, none, none, none, none, some .zoomIn,
       none, none, none, none, none, none, none, some .zoomIn] := by
  norm_num [zoomOuts, zoomStep, zoomAccum, zoomGate, zgEq, detect_gesture,
    zInit, zoomHeldTrace]

/-- Witness for the C6 theorem: on the held-gesture trace the fires at
frames 7 and 15 are 0.8 s apart, meeting the 0.5 s cooldown bound. -/
theorem C6_zoom_cooldown_witness :
    0.5 ≤ frameT zoomHeldTrace 15 - frameT zoomHeldTrace 7 :=
  C6_zoom_cooldown_gap zoomHeldTrace 7 15 (by omega)
    (by simp [zoomFiresFrom, zoomOuts_heldTrace])
    (by simp [zoomFiresFrom, zoomOuts_heldTrace])
    (by
      intro k h1 h2
      interval_cases k <;> simp [zoomFiresFrom, zoomOuts_heldTrace])

/-! ### Video player mode (video_player.py) -/

/-- One frame as `VideoPlayer.run` sees it: timestamp, hand presence, the
raw index-fingertip pixel position (input to cursor smoothing), and the
per-frame gesture-detector results. -/
structure VPFrame where
  t : ℚ
  hand : Bool
  rawCursor : ℚ × ℚ
  pinch : Bool
  fist : Bool
  backG : Bool
  openPalm : Bool
  masterExit : Bool
deriving DecidableEq

/-- The mutable state of a `VideoPlayer` instance (video_player.py,
lines 121-152), minus the fixed video list, which is passed separately. -/
structure VPState where
  page : ℕ
  pinch_start : Option ℚ
  back_start : Option ℚ
  master_exit_start : Option ℚ
  palm_start : Option ℚ
  fist_start : Option ℚ
  last_palm_action : ℚ
  pinched : Bool
  palm_holding : Bool
  fist_holding : Bool
  is_paused : Bool
  last_opened : Option ℕ
  cursor_smooth : Option (ℚ × ℚ)
deriving DecidableEq

/-- Step outputs: whether the mode exited to the master controller, the
index of a video opened this frame, whether play/pause was toggled, and
whether the external player window was closed. -/
structure VPOut where
  exited : Bool
  opened : Option ℕ
  toggled : Bool
  closed : Bool
deriving DecidableEq

/-- `VideoPlayer._row_hit` (video_player.py, lines 264-272): the first row
index `i < n` whose box `40 < cx < 760`, `y0 + i*gap - 28 < cy < y0 +
i*gap + 10` contains the cursor. -/
def row_hit (cursor : Option (ℚ × ℚ)) (y0 gap : ℚ) (n : ℕ) : Option ℕ :=
  match cursor with
  | none => none
  | some c =>
    (List.range n).find? fun i =>
      if 40 < c.1 ∧ c.1 < 760 ∧ y0 + (i : ℚ) * gap - 28 < c.2 ∧
          c.2 < y0 + (i : ℚ) * gap + 10 then true else false

/-- `PER_PAGE = 8` pages of the browser:
`page_total = max(1, (len(videos) + PER_PAGE - 1) // PER_PAGE)`. -/
def pageTotal (videos : List ℕ) : ℕ := max 1 ((videos.length + 8 - 1) / 8)

/-- Exponential cursor smoothing (video_player.py, lines 396-402) with
`CURSOR_ALPHA = 0.35`. -/
def vpSmooth (old : Option (ℚ × ℚ)) (raw : ℚ × ℚ) : ℚ × ℚ :=
  match old with
  | none => raw
  | some c => ((1 - 0.35) * c.1 + 0.35 * raw.1, (1 - 0.35) * c.2 + 0.35 * raw.2)

/-- The fist-to-close block (video_player.py, lines 408-419) with
`FIST_HOLD = 0.5`; `_close_video` (modelled as always succeeding) clears
`last_opened` and `is_paused`.  Returns (fist_start, last_opened,
is_paused, closed). -/
def vpFist (s : VPState) (fr : VPFrame) : Option ℚ × Option ℕ × Bool × Bool :=
  if fr.fist && s.last_opened.isSome then
    let st := s.fist_start.getD fr.t
    if 0.5 ≤ fr.t - st then (none, none, false, true)
    else (some st, s.last_opened, s.is_paused, false)
  else (none, s.last_opened, s.is_paused, false)

/-- The open-palm play/pause block (video_player.py, lines 432-447) with
`PALM_HOLD = 1.0` and `PALM_COOLDOWN = 1.5`.  Returns (palm_start,
last_palm_action, is_paused, toggled). -/
def vpPalm (s : VPState) (fr : VPFrame) (is_paused1 : Bool) :
    Option ℚ × ℚ × Bool × Bool :=
  if fr.openPalm then
    let st := s.palm_start.getD fr.t
    if 1 ≤ fr.t - st ∧ 1.5 ≤ fr.t - s.last_palm_action then
      (none, fr.t, !is_paused1, true)
    else (some st, s.last_palm_action, is_paused1, false)
  else (none, s.last_palm_action, is_paused1, false)

/-- The back-gesture block (video_player.py, lines 449-460) with
`BACK_HOLD = 0.35`; the page decrements only when positive.  Returns
(back_start, page, pinched). -/
def vpBack (s : VPState) (fr : VPFrame) : Option ℚ × ℕ × Bool :=
  if fr.backG && !fr.pinch then
    let st := s.back_start.getD fr.t
    if 0.35 ≤ fr.t - st then
      (none, (if 0 < s.page then s.page - 1 else s.page), false)
    else (some st, s.page, s.pinched)
  else (none, s.page, s.pinched)

/-- The pinch block (video_player.py, lines 462-488) with
`PINCH_HOLD = 0.4`: a confirmed pinch over row `r` opens the video at
`page * 8 + r` when in range (clearing `is_paused`), else advances the
page when a further page exists.  Returns (pinch_start, pinched, page,
last_opened, is_paused, opened index). -/
def vpPinch (videos : List ℕ) (s : VPState) (fr : VPFrame)
    (hovered : Option ℕ) (page1 : ℕ) (pinched1 : Bool)
    (last_opened1 : Option ℕ) (is_paused2 : Bool) :
    Option ℚ × Bool × ℕ × Option ℕ × Bool × Option ℕ :=
  match hovered with
  | some r =>
    if fr.pinch then
      let st := s.pinch_start.getD fr.t
      if 0.4 ≤ fr.t - st ∧ pinched1 = false then
        let file_idx := page1 * 8 + r
        if file_idx < videos.length then
          (none, true, page1, videos.get? file_idx, false, some file_idx)
        else
          if page1 + 1 < pageTotal videos then
            (none, true, page1 + 1, last_opened1, is_paused2, none)
          else (none, true, page1, last_opened1, is_paused2, none)
      else (some st, pinched1, page1, last_opened1, is_paused2, none)
    else (none, pinched1, page1, last_opened1, is_paused2, none)
  | none =>
    if fr.pinch then
      (s.pinch_start, pinched1, page1, last_opened1, is_paused2, none)
    else (none, pinched1, page1, last_opened1, is_paused2, none)

/-- The palm, back and pinch blocks of the loop body, shared by the
non-exiting paths of `vpStep`; `mes` is the updated master-exit timer. -/
def vpRest (videos : List ℕ) (s : VPState) (fr : VPFrame) (cs : ℚ × ℚ)
    (mes : Option ℚ) (fist_start1 : Option ℚ) (last_opened1 : Option ℕ)
    (is_paused1 : Bool) (closed1 : Bool) (fh : Bool) : VPState × VPOut :=
  let palm := vpPalm s fr is_paused1
  let back := vpBack s fr
  let hovered := row_hit (some cs) 90 55 8
  let pin := vpPinch videos s fr hovered back.2.1 back.2.2 last_opened1
    palm.2.2.1
  let pinched3 := if fr.pinch then pin.2.1 else false
  (⟨pin.2.2.1, pin.1, back.1, mes, palm.1, fist_start1,
    palm.2.1, pinched3, fr.openPalm, fh, pin.2.2.2.2.1, pin.2.2.2.1,
    some cs⟩,
   ⟨false, pin.2.2.2.2.2, palm.2.2.2, closed1⟩)

/-- One iteration of the `VideoPlayer.run` loop (video_player.py, lines
372-504): cursor smoothing, the fist-close block, the master-exit hold
(2 s, returning immediately on completion), the open-palm play/pause hold
(1 s, 1.5 s cooldown), the back-gesture hold (0.35 s, previous page when
page > 0), the pinch hold (0.4 s) that opens the hovered video when the
computed index is in range or advances the page when past the end and a
further page exists, and the full timer reset on frames without a hand. -/
def vpStep (videos : List ℕ) (s : VPState) (fr : VPFrame) : VPState × VPOut :=
  if fr.hand then
    let cs := vpSmooth s.cursor_smooth fr.rawCursor
    let fres := vpFist s fr
    let fist_start1 := fres.1
    let last_opened1 := fres.2.1
    let is_paused1 := fres.2.2.1
    let closed1 := fres.2.2.2
    let fh := fr.fist && s.last_opened.isSome
    if fr.masterExit then
      match s.master_exit_start with
      | none =>
        vpRest videos s fr cs (some fr.t) fist_start1 last_opened1 is_paused1 closed1 fh
      | some st =>
        if 2 ≤ fr.t - st then
          (⟨s.page, s.pinch_start, s.back_start, some st, s.palm_start,
            fist_start1, s.last_palm_action, s.pinched, s.palm_holding, fh,
            is_paused1, last_opened1, some cs⟩,
           ⟨true, none, false, closed1⟩)
        else
          vpRest videos s fr cs (some st) fist_start1 last_opened1 is_paused1 closed1 fh
    else
      vpRest videos s fr cs none fist_start1 last_opened1 is_paused1 closed1 fh
  else
    (⟨s.page, none, none, none, none, none, s.last_palm_action, false, false,
      false, s.is_paused, s.last_opened, none⟩,
     ⟨false, none, false, false⟩)


/-- The `VideoPlayer.run` loop over a frame list; stops at the master-exit
return.  Result: (final state, whether the mode exited to the master). -/
def vpRun (videos : List ℕ) (s : VPState) : List VPFrame → VPState × Bool
  | [] => (s, false)
  | fr :: rest =>
    let r := vpStep videos s fr
    if r.2.exited then (r.1, true) else vpRun videos r.1 rest

/-- The state of a freshly constructed `VideoPlayer`
(video_player.py, lines 121-152). -/
def vpInit : VPState :=
  ⟨0, none, none, none, none, none, 0, false, false, false, false, none, none⟩

/-- A junk frame used as the out-of-range default for list indexing. -/
def vpJunk : VPFrame := ⟨0, false, (0, 0), false, false, false, false, false⟩

lemma vpRest_exited (videos : List ℕ) (s : VPState) (fr : VPFrame)
    (cs : ℚ × ℚ) (mes : Option ℚ) (a : Option ℚ) (b : Option ℕ) (c d : Bool)
    (e : Bool) :
    (vpRest videos s fr cs mes a b c d e).2.exited = false := rfl

lemma vpRest_master (videos : List ℕ) (s : VPState) (fr : VPFrame)
    (cs : ℚ × ℚ) (mes : Option ℚ) (a : Option ℚ) (b : Option ℕ) (c d : Bool)
    (e : Bool) :
    (vpRest videos s fr cs mes a b c d e).1.master_exit_start = mes := rfl

lemma vpRest_page (videos : List ℕ) (s : VPState) (fr : VPFrame)
    (cs : ℚ × ℚ) (mes : Option ℚ) (a : Option ℚ) (b : Option ℕ) (c d : Bool)
    (e : Bool) (hpage : s.page < pageTotal videos) :
    (vpRest videos s fr cs mes a b c d e).1.page < pageTotal videos := by
  have hback : (vpBack s fr).2.1 < pageTotal videos := by
    dsimp only [vpBack]
    split_ifs <;> simp only [] <;> omega
  have hpin : ∀ (hov : Option ℕ) (p1 : ℕ) (pb : Bool) (lo : Option ℕ)
      (ip : Bool), p1 < pageTotal videos →
      (vpPinch videos s fr hov p1 pb lo ip).2.2.1 < pageTotal videos := by
    intro hov p1 pb lo ip hp1
    rcases hov with _ | r <;> dsimp only [vpPinch] <;> split_ifs <;>
      simp_all
  exact hpin _ _ _ _ _ hback

lemma vpStep_page (videos : List ℕ) (s : VPState) (fr : VPFrame)
    (hpage : s.page < pageTotal videos) :
    (vpStep videos s fr).1.page < pageTotal videos := by
  unfold vpStep
  by_cases hh : fr.hand
  · simp only [hh, if_true]
    by_cases hme : fr.masterExit
    · simp only [hme, if_true]
      rcases s.master_exit_start with _ | st
    
      · exact vpRest_page _ _ _ _ _ _ _ _ _ _ hpage
      · by_cases hel : (2:ℚ) ≤ fr.t - st
        · simp only [hel, if_true]
          exact hpage
        · simp only [hel, if_false]
          exact vpRest_page _ _ _ _ _ _ _ _ _ _ hpage
    · simp only [hme, if_false]
      exact vpRest_page _ _ _ _ _ _ _ _ _ _ hpage
  · simp only [hh, if_false]
    exact hpage

/-- Claim C10: starting from a fresh `VideoPlayer`, after any sequence of
frames (any gestures, any timing), the page index stays strictly below
`page_total`: the back gesture decrements only when the page is positive,
and the past-the-end pinch advances only when a further page exists, so no
gesture sequence drives the page out of `[0, page_total - 1]`. -/
theorem C10_page_stays_in_range (videos : List ℕ) (frames : List VPFrame) :
    (vpRun videos vpInit frames).1.page < pageTotal videos := by
  have hinit : vpInit.page < pageTotal videos := by
    simp [vpInit, pageTotal]
  suffices h : ∀ (fs : List VPFrame) (s : VPState),
      s.page < pageTotal videos → (vpRun videos s fs).1.page < pageTotal videos from
    h frames vpInit hinit
  intro fs
  induction fs with
  | nil => intro s hs; simpa [vpRun] using hs
  | cons fr rest ih =>
    intro s hs
    have hstep := vpStep_page videos s fr hs
    simp only [vpRun]
    split
    · exact hstep
    · exact ih _ hstep

/-- Claim C5 (amended): on a frame without a detected hand, the video
player resets every hold timer and flag (pinch, back, palm, fist,
master-exit, cursor smoothing) and the Dispatcher clears its confirmation
counter — but scroll mode leaves its whole state, including a partial
master-exit hold, untouched (its no-hand frames simply skip the body),
and slide-travel mode resets only its fist timer. -/
theorem C5_no_hand_resets (videos : List ℕ) (s : VPState) (t : ℚ)
    (rc : ℚ × ℚ) (p f b o m : Bool) (c : ℕ) (g : FingerState)
    (ss : SState) (sl : SlState) (slf : Bool) :
    ((vpStep videos s ⟨t, false, rc, p, f, b, o, m⟩).1.pinch_start = none ∧
      (vpStep videos s ⟨t, false, rc, p, f, b, o, m⟩).1.pinched = false ∧
      (vpStep videos s ⟨t, false, rc, p, f, b, o, m⟩).1.back_start = none ∧
      (vpStep videos s ⟨t, false, rc, p, f, b, o, m⟩).1.palm_start = none ∧
      (vpStep videos s ⟨t, false, rc, p, f, b, o, m⟩).1.fist_start = none ∧
      (vpStep videos s ⟨t, false, rc, p, f, b, o, m⟩).1.master_exit_start = none ∧
      (vpStep videos s ⟨t, false, rc, p, f, b, o, m⟩).1.cursor_smooth = none) ∧
    (dispatcherStep c ⟨false, g⟩).1 = 0 ∧
    (scrollStep ss ⟨t, false, g⟩).1 = ss ∧
    (slideStep sl ⟨t, false, g, slf⟩).1 = ⟨none, sl.last_action_time⟩ := by
  refine ⟨⟨?_, ?_, ?_, ?_, ?_, ?_, ?_⟩, ?_, ?_, ?_⟩ <;>
    simp [vpStep, dispatcherStep, scrollStep, slideStep]

lemma vpStep_exited (videos : List ℕ) (s : VPState) (fr : VPFrame)
    (hex : (vpStep videos s fr).2.exited = true) :
    fr.hand = true ∧ fr.masterExit = true ∧
      ∃ st, s.master_exit_start = some st ∧ 2 ≤ fr.t - st := by
  by_cases hh : fr.hand
  · by_cases hme : fr.masterExit
    · rcases hms : s.master_exit_start with _ | st
      · simp [vpStep, hh, hme, hms, vpRest_exited] at hex
      · by_cases hel : (2:ℚ) ≤ fr.t - st
        · exact ⟨hh, hme, st, rfl, hel⟩
        · simp [vpStep, hh, hme, hms, hel, vpRest_exited] at hex
    · simp [vpStep, hh, hme, vpRest_exited] at hex
  · simp [vpStep, hh] at hex

lemma vpStep_master (videos : List ℕ) (s : VPState) (fr : VPFrame) (st : ℚ)
    (hms : (vpStep videos s fr).1.master_exit_start = some st) :
    fr.hand = true ∧ fr.masterExit = true ∧
      (s.master_exit_start = some st ∨ st = fr.t) := by
  by_cases hh : fr.hand
  · by_cases hme : fr.masterExit
    · rcases hms0 : s.master_exit_start with _ | st0
      · simp [vpStep, hh, hme, hms0, vpRest_master] at hms
        exact ⟨hh, hme, Or.inr hms.symm⟩
      · by_cases hel : (2:ℚ) ≤ fr.t - st0
        · simp [vpStep, hh, hme, hms0, hel] at hms
          exact ⟨hh, hme, Or.inl (by rw [hms])⟩
        · simp [vpStep, hh, hme, hms0, hel, vpRest_master] at hms
          exact ⟨hh, hme, Or.inl (by rw [hms])⟩
    · simp [vpStep, hh, hme, vpRest_master] at hms
  · simp [vpStep, hh] at hms

lemma vpRun_cons (videos : List ℕ) (s : VPState) (fr : VPFrame)
    (rest : List VPFrame) :
    vpRun videos s (fr :: rest) =
      if (vpStep videos s fr).2.exited then ((vpStep videos s fr).1, true)
      else vpRun videos (vpStep videos s fr).1 rest := rfl

lemma vpRun_exit_hold (videos : List ℕ) :
    ∀ (frames : List VPFrame) (s : VPState),
      (vpRun videos s frames).2 = true →
      (∃ i j, i ≤ j ∧ j < frames.length ∧
        (∀ m, i ≤ m → m ≤ j → (frames.getD m vpJunk).hand = true ∧
          (frames.getD m vpJunk).masterExit = true) ∧
        2 ≤ (frames.getD j vpJunk).t - (frames.getD i vpJunk).t) ∨
      (∃ st j, s.master_exit_start = some st ∧ j < frames.length ∧
        (∀ m, m ≤ j → (frames.getD m vpJunk).hand = true ∧
          (frames.getD m vpJunk).masterExit = true) ∧
        2 ≤ (frames.getD j vpJunk).t - st) := by
  intro frames
  induction frames with
  | nil => intro s h; simp [vpRun] at h
  | cons fr rest ih =>
    intro s h
    rw [vpRun_cons] at h
    by_cases hex : (vpStep videos s fr).2.exited
    · obtain ⟨hh, hme, st, hms, hel⟩ := vpStep_exited videos s fr hex
      right
      refine ⟨st, 0, hms, by simp, ?_, ?_⟩
      · intro m hm
        have hm0 : m = 0 := by omega
        subst hm0
        exact ⟨hh, hme⟩
      · simpa using hel
    · rw [if_neg hex] at h
      rcases ih (vpStep videos s fr).1 h with hleft | hright
      · obtain ⟨i, j, hij, hjlen, hhold, hgap⟩ := hleft
        left
        refine ⟨i + 1, j + 1, by omega, ?_, ?_, ?_⟩
        · simpa using Nat.succ_lt_succ hjlen
        · intro m h1 h2
          obtain ⟨m', rfl⟩ : ∃ m', m = m' + 1 := ⟨m - 1, by omega⟩
          rw [List.getD_cons_succ]
          exact hhold m' (by omega) (by omega)
        · rw [List.getD_cons_succ, List.getD_cons_succ]
          exact hgap
      · obtain ⟨st, j, hms', hjlen, hhold, hgap⟩ := hright
        obtain ⟨hh, hme, hor⟩ := vpStep_master videos s fr st hms'
        rcases hor with hcarry | hfresh
        · right
          refine ⟨st, j + 1, hcarry, ?_, ?_, ?_⟩
          · simpa using Nat.succ_lt_succ hjlen
          · intro m hm
            cases m with
            | zero => exact ⟨hh, hme⟩
            | succ m' =>
              rw [List.getD_cons_succ]
              exact hhold m' (by omega)
          · rw [List.getD_cons_succ]
            exact hgap
        · left
          refine ⟨0, j + 1, by omega, ?_, ?_, ?_⟩
          · simpa using Nat.succ_lt_succ hjlen
          · intro m _ hm
            cases m with
            | zero => exact ⟨hh, hme⟩
            | succ m' =>
              rw [List.getD_cons_succ]
              exact hhold m' (by omega)
          · rw [List.getD_cons_succ]
            show 2 ≤ (rest.getD j vpJunk).t - ((fr :: rest).getD 0 vpJunk).t
            rw [List.getD_cons_zero, ← hfresh]
            exact hgap

/-- Claim C2 (amended): in the video player, reaching the master-exit
return requires a contiguous run of frames, all with a detected hand in
the master-exit pose, spanning at least `MASTER_EXIT_HOLD = 2` seconds —
the hold timer arms on the first pose frame and resets whenever the pose
or the hand is lost.  (Scroll and the file opener gate their exits by the
same 2-second comparison, while slide-travel mode exits with no hold at
all — see the counterexample — and the zoom and screenshot modes do not
implement this gesture; screenshot mode even maps the same pose to its
own trigger.) -/
theorem C2_video_exit_needs_2s_hold (videos : List ℕ)
    (frames : List VPFrame)
    (hex : (vpRun videos vpInit frames).2 = true) :
    ∃ i j, i ≤ j ∧ j < frames.length ∧
      (∀ m, i ≤ m → m ≤ j → (frames.getD m vpJunk).hand = true ∧
        (frames.getD m vpJunk).masterExit = true) ∧
      2 ≤ (frames.getD j vpJunk).t - (frames.getD i vpJunk).t := by
  rcases vpRun_exit_hold videos frames vpInit hex with h | h
  · exact h
  · obtain ⟨st, j, hms, _⟩ := h
    simp [vpInit] at hms

lemma list_range_8 : List.range 8 = [0, 1, 2, 3, 4, 5, 6, 7] := by decide

/-- Two frames in the master-exit pose, 3 seconds apart, with a cursor
away from every row. -/
def vpExitTrace : List VPFrame :=
  [⟨0, true, (0, 0), false, false, false, false, true⟩,
   ⟨3, true, (0, 0), false, false, false, false, true⟩]

/-- Witness for the amended C2 theorem: the two-frame pose-holding trace
does reach the master-exit return, and the theorem recovers the pose-held
interval of at least 2 seconds inside it. -/
theorem C2_video_exit_witness :
    ∃ i j, i ≤ j ∧ j < vpExitTrace.length ∧
      (∀ m, i ≤ m → m ≤ j → (vpExitTrace.getD m vpJunk).hand = true ∧
        (vpExitTrace.getD m vpJunk).masterExit = true) ∧
      2 ≤ (vpExitTrace.getD j vpJunk).t - (vpExitTrace.getD i vpJunk).t :=
  C2_video_exit_needs_2s_hold [] vpExitTrace (by
    norm_num [vpRun, vpStep, vpRest, vpPalm, vpBack, vpPinch, vpFist,
      vpSmooth, row_hit, list_range_8, vpInit, vpExitTrace, pageTotal,
      List.find?])

/-! ### File opener mode (open_files.py) -/

/-- The `HandFileOpener` UI states (open_files.py, line 29). -/
inductive OFMode where
  | menu
  | browse
  | opened
deriving DecidableEq, Repr

/-- The mutable state of a `HandFileOpener` (open_files.py, lines 29-47).
`back_g` models the Python local variable of the same purpose, which is
assigned only on frames with a hand and therefore keeps its previous
value across hand-less frames. -/
structure OFState where
  state : OFMode
  choice : Option ℕ
  files : List ℕ
  page : ℕ
  last_opened : Option ℕ
  pinched : Bool
  pinch_start : Option ℚ
  back_start : Option ℚ
  fist_start : Option ℚ
  master_exit_start : Option ℚ
  back_g : Bool
deriving DecidableEq

/-- One frame as `HandFileOpener.run` sees it; `scan` is the
`find_files` result consulted if a menu selection fires this frame
(an external file-system snapshot), and files are abstracted to numeric
identifiers. -/
structure OFFrame where
  t : ℚ
  hand : Bool
  pinch : Bool
  fist : Bool
  backG : Bool
  masterExit : Bool
  cursor : Option (ℚ × ℚ)
  scan : List ℕ
deriving DecidableEq

/-- Step outputs of the file opener. -/
structure OFOut where
  exited : Bool
  opened : Option ℕ
  closed : Bool
deriving DecidableEq

/-- `HandFileOpener.menu_hit_test` (open_files.py, lines 360-372): four
menu boxes at x in (50, 280), y rows starting at 40 with gap 80. -/
def menu_hit_test (cursor : Option (ℚ × ℚ)) : Option ℕ :=
  match cursor with
  | none => none
  | some c =>
    (List.range 4).find? fun i =>
      if 50 < c.1 ∧ c.1 < 280 ∧ 40 + (i : ℚ) * 80 - 30 < c.2 ∧
          c.2 < 40 + (i : ℚ) * 80 + 10 then true else false

/-- `HandFileOpener.file_hit_test` (open_files.py, lines 394-405): eight
file rows at x in (40, 750), y rows starting at 80 with gap 50. -/
def file_hit_test (cursor : Option (ℚ × ℚ)) : Option ℕ :=
  match cursor with
  | none => none
  | some c =>
    (List.range 8).find? fun i =>
      if 40 < c.1 ∧ c.1 < 750 ∧ 80 + (i : ℚ) * 50 - 30 < c.2 ∧
          c.2 < 80 + (i : ℚ) * 50 + 10 then true else false

/-- Result of the global fist-close block. -/
structure OFFistRes where
  fist_start : Option ℚ
  last_opened : Option ℕ
  pinched : Bool
  closed : Bool
deriving DecidableEq

/-- The global fist-close block (open_files.py, lines 224-246) with
`FIST_HOLD = 0.35`: requires an open file and a held fist; closing clears
`last_opened` and the pinch guard. -/
def ofFist (s : OFState) (t : ℚ) (fist : Bool) : OFFistRes :=
  if s.last_opened.isSome && fist then
    let st := s.fist_start.getD t
    if 0.35 ≤ t - st then ⟨none, none, false, true⟩
    else ⟨some st, s.last_opened, s.pinched, false⟩
  else ⟨none, s.last_opened, s.pinched, false⟩

/-- Result of the pinch block of either UI state. -/
structure OFPinchRes where
  state : OFMode
  choice : Option ℕ
  files : List ℕ
  page : ℕ
  pinched : Bool
  pinch_start : Option ℚ
  last_opened : Option ℕ
  opened : Option ℕ
deriving DecidableEq

/-- The menu-state pinch block (open_files.py, lines 249-272) with
`PINCH_HOLD = 0.35`: a held pinch over a menu box selects the file type,
stores the scan result and enters the browse state. -/
def ofMenuPinch (s : OFState) (t : ℚ) (pinch : Bool)
    (cursor : Option (ℚ × ℚ)) (pinched1 : Bool) (last1 : Option ℕ)
    (scan : List ℕ) : OFPinchRes :=
  if pinch then
    let st := s.pinch_start.getD t
    if 0.35 ≤ t - st ∧ pinched1 = false then
      match menu_hit_test cursor with
      | some i => ⟨.browse, some i, scan, 0, true, some st, last1, none⟩
      | none => ⟨s.state, s.choice, s.files, s.page, true, some st, last1, none⟩
    else ⟨s.state, s.choice, s.files, s.page, pinched1, some st, last1, none⟩
  else ⟨s.state, s.choice, s.files, s.page, pinched1, none, last1, none⟩

/-- The browse-state pinch block (open_files.py, lines 274-307): a held
pinch over file row `r` computes `page * per_page + r` and opens that
file only when the index is within the file list, returning to the menu
state; an out-of-range index opens nothing and leaves the browser fields
untouched (only the pinch guard is consumed). -/
def ofBrowsePinch (s : OFState) (t : ℚ) (pinch : Bool)
    (cursor : Option (ℚ × ℚ)) (pinched1 : Bool) (last1 : Option ℕ) :
    OFPinchRes :=
  if pinch then
    let st := s.pinch_start.getD t
    if 0.35 ≤ t - st ∧ pinched1 = false then
      match file_hit_test cursor with
      | some r =>
        if s.page * 8 + r < s.files.length then
          ⟨.menu, none, [], 0, true, none, s.files.get? (s.page * 8 + r),
            s.files.get? (s.page * 8 + r)⟩
        else ⟨s.state, s.choice, s.files, s.page, true, some st, last1, none⟩
      | none => ⟨s.state, s.choice, s.files, s.page, true, some st, last1, none⟩
    else ⟨s.state, s.choice, s.files, s.page, pinched1, some st, last1, none⟩
  else ⟨s.state, s.choice, s.files, s.page, pinched1, none, last1, none⟩

/-- Result of the browse-state back-gesture block. -/
structure OFBackRes where
  state : OFMode
  choice : Option ℕ
  files : List ℕ
  page : ℕ
  pinched : Bool
  back_start : Option ℚ
deriving DecidableEq

/-- The browse-state back-gesture block (open_files.py, lines 309-325)
with `BACK_HOLD = 0.3`: a held back gesture returns to the menu. -/
def ofBrowseBack (t : ℚ) (back_g : Bool) (back_start : Option ℚ)
    (p : OFPinchRes) : OFBackRes :=
  if back_g then
    let st := back_start.getD t
    if 0.3 ≤ t - st then ⟨.menu, none, [], 0, false, none⟩
    else ⟨p.state, p.choice, p.files, p.page, p.pinched, some st⟩
  else ⟨p.state, p.choice, p.files, p.page, p.pinched, none⟩

/-- The non-exiting remainder of one `HandFileOpener.run` iteration:
the global fist-close block, the per-state pinch/back blocks, and the
final pinch-release reset (open_files.py, lines 331-334). -/
def ofRest (s : OFState) (fr : OFFrame) (pinch fist back_g : Bool)
    (cursor : Option (ℚ × ℚ)) (mes : Option ℚ) : OFState × OFOut :=
  let f := ofFist s fr.t fist
  match s.state with
  | .menu =>
    let m := ofMenuPinch s fr.t pinch cursor f.pinched f.last_opened fr.scan
    (⟨m.state, m.choice, m.files, m.page, m.last_opened,
      (if pinch then m.pinched else false),
      (if pinch then m.pinch_start else none), s.back_start, f.fist_start,
      mes, back_g⟩,
     ⟨false, m.opened, f.closed⟩)
  | .browse =>
    let b := ofBrowsePinch s fr.t pinch cursor f.pinched f.last_opened
    let bb := ofBrowseBack fr.t back_g s.back_start b
    (⟨bb.state, bb.choice, bb.files, bb.page, b.last_opened,
      (if pinch then bb.pinched else false),
      (if pinch then b.pinch_start else none), bb.back_start, f.fist_start,
      mes, back_g⟩,
     ⟨false, b.opened, f.closed⟩)
  | .opened =>
    (⟨s.state, s.choice, s.files, s.page, f.last_opened,
      (if pinch then f.pinched else false),
      (if pinch then s.pinch_start else none), s.back_start, f.fist_start,
      mes, back_g⟩,
     ⟨false, none, f.closed⟩)

/-- One iteration of the `HandFileOpener.run` loop (open_files.py, lines
167-339): the per-frame pinch/fist flags are false without a hand, the
Python-local back flag and the master-exit timer survive hand-less frames
untouched, and the master-exit hold (2 s) returns to the master
controller. -/
def ofStep (s : OFState) (fr : OFFrame) : OFState × OFOut :=
  let pinch := fr.hand && fr.pinch
  let fist := fr.hand && fr.fist
  let back_g := if fr.hand then fr.backG else s.back_g
  let cursor := if fr.hand then fr.cursor else none
  if fr.hand && fr.masterExit then
    match s.master_exit_start with
    | none => ofRest s fr pinch fist back_g cursor (some fr.t)
    | some st =>
      if 2 ≤ fr.t - st then (s, ⟨true, none, false⟩)
      else ofRest s fr pinch fist back_g cursor (some st)
  else if fr.hand then ofRest s fr pinch fist back_g cursor none
  else ofRest s fr pinch fist back_g cursor s.master_exit_start

/-- Claim C9: in the browser's browse state, a confirmed held pinch over
file row `r` opens the file at index `page * per_page + r` exactly when
that index lies within the file list; over an out-of-range row it opens
nothing and leaves the browser fields — state tag, choice, files, page —
unchanged (only the pinch guard is consumed). -/
theorem C9_browse_pinch_bounds (s : OFState) (fr : OFFrame) (r : ℕ) (ps : ℚ)
    (hstate : s.state = OFMode.browse)
    (hhand : fr.hand = true) (hpinch : fr.pinch = true)
    (hme : fr.masterExit = false) (hfist : fr.fist = false)
    (hback : fr.backG = false)
    (hhit : file_hit_test fr.cursor = some r)
    (hps : s.pinch_start = some ps) (hel : 0.35 ≤ fr.t - ps)
    (hpd : s.pinched = false) :
    (s.page * 8 + r < s.files.length →
      (ofStep s fr).2.opened = s.files.get? (s.page * 8 + r)) ∧
    (s.files.length ≤ s.page * 8 + r →
      (ofStep s fr).2.opened = none ∧
        (ofStep s fr).1.state = s.state ∧
        (ofStep s fr).1.choice = s.choice ∧
        (ofStep s fr).1.files = s.files ∧
        (ofStep s fr).1.page = s.page) := by
  constructor
  · intro hb
    simp [ofStep, hhand, hme, hpinch, hfist, hback, ofRest, hstate, ofFist,
      ofBrowsePinch, ofBrowseBack, hps, hpd, hel, hhit, hb]
  · intro hb
    have hb' : ¬ (s.page * 8 + r < s.files.length) := by omega
    refine ⟨?_, ?_, ?_, ?_, ?_⟩ <;>
      simp [ofStep, hhand, hme, hpinch, hfist, hback, ofRest, hstate, ofFist,
        ofBrowsePinch, ofBrowseBack, hps, hpd, hel, hhit, hb', hstate]

/-- A browse-state file opener with an empty file list and an armed pinch
hold. -/
def s9w : OFState :=
  ⟨.browse, some 0, [], 0, none, false, some 0, none, none, none, false⟩

/-- A pinch frame hovering over file row 1 (cursor at (100, 101)). -/
def fr9w : OFFrame := ⟨1, true, true, false, false, false, some (100, 101), []⟩

/-- Witness for the C9 theorem: a confirmed pinch over row 1 of an empty
file list (index 1, out of range) opens nothing and leaves the browser
fields unchanged. -/
theorem C9_browse_pinch_witness :
    (s9w.page * 8 + 1 < s9w.files.length →
      (ofStep s9w fr9w).2.opened = s9w.files.get? (s9w.page * 8 + 1)) ∧
    (s9w.files.length ≤ s9w.page * 8 + 1 →
      (ofStep s9w fr9w).2.opened = none ∧
        (ofStep s9w fr9w).1.state = s9w.state ∧
        (ofStep s9w fr9w).1.choice = s9w.choice ∧
        (ofStep s9w fr9w).1.files = s9w.files ∧
        (ofStep s9w fr9w).1.page = s9w.page) :=
  C9_browse_pinch_bounds s9w fr9w 1 0 rfl rfl rfl rfl rfl rfl
    (by norm_num [file_hit_test, list_range_8, fr9w, List.find?])
    rfl (by norm_num [fr9w]) rfl
